import Mathlib

/-!
# go-kit: Redis connection helpers and the two-tier cache

A verification development over a shallow embedding of

* `cache/redis/redis_cache.go`: `Connection`, `Connection.Default` and the
  client constructors with their retry-on-connect loop;
* the multi-tier cache exercised by `src/cmd/cache/cache_test.go`.

Go `int` and `time.Duration` values are modelled as `Int` (the code only
compares them with zero and with each other, and counts retries upwards from
zero, so no overflow is involved). A duration is a number of nanoseconds.
-/

namespace Redis

/-! ## cache/redis/redis_cache.go -/

/-- One second as a `time.Duration` (nanoseconds). -/
def Second : Int := 1000000000

/-- The constant `DefaultRedisAddress`. -/
def DefaultRedisAddress : String := "localhost:6379"

/-- The constant `DefaultMaxRetries`. -/
def DefaultMaxRetries : Int := 3

/-- The constant `DefaultPoolSize`. -/
def DefaultPoolSize : Int := 100

/-- The constant `DefaultRetryAfter = 5 * time.Second`. -/
def DefaultRetryAfter : Int := 5 * Second

/-- The struct `Connection`. A nil and an empty `Addresses` slice are both the
empty list: the code only looks at `len(c.Addresses)`. -/
structure Connection where
  MasterName : String
  Address : String
  Addresses : List String
  Password : String
  DB : Int
  MaxRetries : Int
  PoolSize : Int
  RetryAfter : Int
  deriving DecidableEq

/-- The zero value `Connection{}`. -/
def Connection.zero : Connection :=
  { MasterName := "", Address := "", Addresses := [], Password := "",
    DB := 0, MaxRetries := 0, PoolSize := 0, RetryAfter := 0 }

/-- The method `(c *Connection) Default()`: the connection after the call. The
five `if` statements run in the order of the source. -/
def Connection.Default (c : Connection) : Connection :=
  let c1 :=
    if c.Address = "" ∧ c.Addresses.length = 0 then
      { c with Address := DefaultRedisAddress, Addresses := [DefaultRedisAddress] }
    else c
  let c2 := if c1.MaxRetries ≤ 0 then { c1 with MaxRetries := DefaultMaxRetries } else c1
  let c3 := if c2.PoolSize ≤ 0 then { c2 with PoolSize := DefaultPoolSize } else c2
  let c4 := if c3.DB ≤ 0 then { c3 with DB := 0 } else c3
  if c4.RetryAfter ≤ 0 then { c4 with RetryAfter := DefaultRetryAfter } else c4

/-- The struct `redis.UniversalOptions`, restricted to the fields the code sets. -/
structure UniversalOptions where
  Addrs : List String
  Password : String
  DB : Int
  MasterName : String
  MaxRetries : Int
  PoolSize : Int
  deriving DecidableEq

/-- The struct `redis.ClusterOptions`, restricted to the fields the code sets. -/
structure ClusterOptions where
  Addrs : List String
  Password : String
  MaxRetries : Int
  PoolSize : Int
  deriving DecidableEq

/-- The struct `redis.FailoverOptions`, restricted to the fields the code sets. -/
structure FailoverOptions where
  MasterName : String
  SentinelAddrs : List String
  Password : String
  DB : Int
  MaxRetries : Int
  PoolSize : Int
  deriving DecidableEq

/-- The struct `redis.Options`, restricted to the fields the code sets. -/
structure Options where
  Addr : String
  Password : String
  DB : Int
  MaxRetries : Int
  PoolSize : Int
  deriving DecidableEq

/-- A Go `error` returned by a constructor: either built by `fmt.Errorf` with
the given message, or the error of a failed `client.Ping().Result()`. -/
inductive Error where
  | errorf (msg : String)
  | pingError (msg : String)
  deriving DecidableEq

/-- What a constructor does to the outside world, in order: the client it
creates (with the options handed to the go-redis library), every `Ping` with
its outcome (`none` is a nil error), every `time.Sleep` with its duration. -/
inductive Event (α : Type) where
  | create (options : α)
  | ping (err : Option String)
  | sleep (d : Int)
  deriving DecidableEq

/-- The pair `(client, error)` a constructor returns (`none` is Go's `nil`; a
client is identified with the options it was created from), together with the
events of the call. -/
structure Result (α : Type) where
  client : Option α
  err : Option Error
  trace : List (Event α)
  deriving DecidableEq

/-- The retry-on-connect loop, which the four constructors repeat verbatim:

```go
retries := 0
for {
    _, err := client.Ping().Result()
    if err == nil { break }
    if retries >= c.MaxRetries { return nil, err }
    retries++
    time.Sleep(c.RetryAfter)
}
return client, nil
```

`ping k` is the outcome of the `k`-th ping sent (counted from zero); since
`retries` is incremented after every failed ping, the ping sent when
`retries = k` is the `k`-th. `tr` is the trace so far. One unit of fuel is one
iteration of the `for`; `none` means the fuel ran out. -/
def connect {α : Type} (c : Connection) (ping : Nat → Option String) (client : α) :
    Nat → Nat → List (Event α) → Option (Result α)
  | 0, _, _ => none
  | fuel + 1, retries, tr =>
    match ping retries with
    | none => some { client := some client, err := none, trace := tr ++ [Event.ping none] }
    | some e =>
      if (retries : Int) ≥ c.MaxRetries then
        some { client := none, err := some (Error.pingError e),
               trace := tr ++ [Event.ping (some e)] }
      else
        connect c ping client fuel (retries + 1)
          (tr ++ [Event.ping (some e), Event.sleep c.RetryAfter])

/-- The function `NewUniversalRedisClient`. -/
def NewUniversalRedisClient (fuel : Nat) (c : Connection) (ping : Nat → Option String) :
    Option (Result UniversalOptions) :=
  if c.Address = "" ∧ c.Addresses.length = 0 then
    some { client := none, err := some (Error.errorf "address was not set"), trace := [] }
  else
    let options : UniversalOptions :=
      { Addrs := c.Addresses, Password := c.Password, DB := c.DB,
        MasterName := c.MasterName, MaxRetries := c.MaxRetries, PoolSize := c.PoolSize }
    let options :=
      if options.Addrs.length = 0 then { options with Addrs := [c.Address] } else options
    connect c ping options fuel 0 [Event.create options]

/-- The function `NewClusterRedisClient`. -/
def NewClusterRedisClient (fuel : Nat) (c : Connection) (ping : Nat → Option String) :
    Option (Result ClusterOptions) :=
  if c.Addresses.length = 0 then
    some { client := none, err := some (Error.errorf "address was not set"), trace := [] }
  else
    let options : ClusterOptions :=
      { Addrs := c.Addresses, Password := c.Password,
        MaxRetries := c.MaxRetries, PoolSize := c.PoolSize }
    connect c ping options fuel 0 [Event.create options]

/-- The function `NewSentinelRedisClient`. -/
def NewSentinelRedisClient (fuel : Nat) (c : Connection) (ping : Nat → Option String) :
    Option (Result FailoverOptions) :=
  if c.Addresses.length = 0 then
    some { client := none, err := some (Error.errorf "address was not set"), trace := [] }
  else if c.MasterName = "" then
    some { client := none,
           err := some (Error.errorf "master name of sentinel cluster was not set"),
           trace := [] }
  else
    let options : FailoverOptions :=
      { MasterName := c.MasterName, SentinelAddrs := c.Addresses, Password := c.Password,
        DB := c.DB, MaxRetries := c.MaxRetries, PoolSize := c.PoolSize }
    connect c ping options fuel 0 [Event.create options]

/-- The function `NewSingleRedisClient`. -/
def NewSingleRedisClient (fuel : Nat) (c : Connection) (ping : Nat → Option String) :
    Option (Result Options) :=
  if c.Address = "" then
    some { client := none, err := some (Error.errorf "address was not set"), trace := [] }
  else
    let options : Options :=
      { Addr := c.Address, Password := c.Password, DB := c.DB,
        MaxRetries := c.MaxRetries, PoolSize := c.PoolSize }
    connect c ping options fuel 0 [Event.create options]

/-- The function `NewDefaultRedisClient`; the fields its literal leaves out
(`MasterName`, `Addresses`, `RetryAfter`) have their zero value. -/
def NewDefaultRedisClient (fuel : Nat) (ping : Nat → Option String) :
    Option (Result Options) :=
  NewSingleRedisClient fuel
    { MasterName := "", Address := DefaultRedisAddress, Addresses := [], Password := "",
      DB := 0, MaxRetries := DefaultMaxRetries, PoolSize := DefaultPoolSize,
      RetryAfter := 0 }
    ping

/-- The function `NewDefaultRedisUniversalClient`. -/
def NewDefaultRedisUniversalClient (fuel : Nat) (ping : Nat → Option String) :
    Option (Result UniversalOptions) :=
  NewUniversalRedisClient fuel Connection.zero.Default ping

/-- The fuel that lets the loop of a constructor called on `c` run to its end:
one iteration per allowed retry, and one more. -/
def enoughFuel (c : Connection) : Nat := c.MaxRetries.toNat + 1

/-- The outcomes of the pings a trace records, in the order they were sent. -/
def pings {α : Type} (tr : List (Event α)) : List (Option String) :=
  tr.filterMap (fun ev =>
    match ev with
    | Event.ping err => some err
    | _ => none)

/-- A constructor result obeys the return discipline, against the server whose
`k`-th ping has the outcome `ping k`. With a nil error, the returned client is
the one that was created, the pings sent to it are the pings `0, ..., k` of the
server for some `k`, the last of them, ping `k`, returned no error, and nothing
was done after it. With a non-nil error the client is nil. -/
def Result.Guarded {α : Type} (ping : Nat → Option String) (r : Result α) : Prop :=
  (r.err = none →
    ∃ o k, r.client = some o ∧ Event.create o ∈ r.trace ∧
      ping k = none ∧ pings r.trace = (List.range (k + 1)).map ping ∧
      r.trace.getLast? = some (Event.ping none)) ∧
  (r.err ≠ none → r.client = none)

/-- A server that refuses the first two pings and answers the third. -/
def ping0 : Nat → Option String := fun k => if k < 2 then some "connection refused" else none

/-- A sentinel configuration with two retries, one second apart. -/
def sentinelConn : Connection :=
  { MasterName := "mymaster", Address := "10.0.0.1:6379", Addresses := ["10.0.0.1:26379"],
    Password := "", DB := 0, MaxRetries := 2, PoolSize := 10, RetryAfter := Second }

end Redis

namespace Cache

/-! ## The multi-tier cache (package `cache`, used by `src/cmd/cache/cache_test.go`)

The test file calls `NewMultiCache`, `Set`, `Get`, `SetCtx` and `GetCtx`; the
file that defines them is not among the sources, so the cache is modelled from
the specification (sections 3, 4 and 6). Time is explicit: every operation
takes the instant `now` at which it runs, in nanoseconds, and a TTL is a
duration in nanoseconds. -/

/-- A byte sequence (`[]byte`). -/
abbrev Bytes := List (Fin 256)

/-- Modelled from the spec: the error taxonomy of section 7, which the missing
cache implementation returns. `NotFound` is the remote store's nil reply
(`redis.Nil` in the test); `StoreError` carries the transport, protocol or
context failure of a remote call. -/
inductive CacheError where
  | NotFound
  | StoreError (msg : String)
  | EncodeError
  | DecodeError
  | ConfigError
  deriving DecidableEq

deriving instance DecidableEq for Except

/-- Modelled from the spec: the `CacheEntry` of section 3 (the missing
implementation's entry record): key, value and expiry instant. -/
structure CacheEntry where
  key : String
  value : Bytes
  expiresAt : Int
  deriving DecidableEq

/-- Modelled from the spec: the Local Tier of section 3 (missing from the
sources): a bounded mapping from key to entry with a maximum entry count and a
default TTL. The entries are kept in insertion/refresh order, oldest first, at
most one per key. -/
structure LocalTier where
  capacity : Int
  defaultTTL : Int
  entries : List CacheEntry
  deriving DecidableEq

/-- Modelled from the spec: Local Tier `Get` (section 4.3, missing from the
sources). An entry whose `expiresAt <= now` is treated as absent and is purged
by the lookup. Returns the value found, if any, and the tier afterwards. -/
def LocalTier.Get (l : LocalTier) (now : Int) (key : String) : Option Bytes × LocalTier :=
  match l.entries.find? (fun e => e.key = key) with
  | none => (none, l)
  | some e =>
    if e.expiresAt ≤ now then
      (none, { l with entries := l.entries.filter (fun e => e.key ≠ key) })
    else
      (some e.value, l)

/-- Modelled from the spec: Local Tier `Set` (section 4.3, missing from the
sources). With `ttl <= 0` the default TTL is used. An existing key has its
entry replaced (value and expiry refreshed, no new insertion); a new key at
`size == capacity` evicts exactly one entry first, the oldest in
insertion/refresh order. -/
def LocalTier.Set (l : LocalTier) (now : Int) (key : String) (value : Bytes) (ttl : Int) :
    LocalTier :=
  let ttl := if ttl ≤ 0 then l.defaultTTL else ttl
  let entry : CacheEntry := { key := key, value := value, expiresAt := now + ttl }
  if l.entries.any (fun e => e.key = key) then
    { l with entries := l.entries.filter (fun e => e.key ≠ key) ++ [entry] }
  else if (l.entries.length : Int) = l.capacity then
    { l with entries := l.entries.tail ++ [entry] }
  else
    { l with entries := l.entries ++ [entry] }

/-- Modelled from the spec: Local Tier `Delete` (section 4.3, missing from the
sources): removes the entry unconditionally, no error when absent. -/
def LocalTier.Delete (l : LocalTier) (key : String) : LocalTier :=
  { l with entries := l.entries.filter (fun e => e.key ≠ key) }

/-- Modelled from the spec: the cancellation token of sections 4.4 and 9 passed
to every remote-facing call. `err = none` is a live context, such as
`context.Background()`; `err = some msg` is a cancelled or expired one. -/
structure Context where
  err : Option String
  deriving DecidableEq

/-- The context `context.Background()`. -/
def Context.Background : Context := { err := none }

/-- Modelled from the spec: the Remote Store of section 3, an external
TTL-expiring key-value store seen through the adapter of section 4.2 (the real
one is a Redis server behind the go-redis client). Each key has at most one
entry, the newest first. Only this cache writes to it here. -/
structure RemoteStore where
  entries : List CacheEntry
  deriving DecidableEq

/-- Modelled from the spec: why a remote call fails with `StoreError`, if it
does: the context it was given is done, or the transport fails (`fault`, decided
by the environment for each call). `none`: the store answers the call. -/
def callFailure (ctx : Context) (fault : Option String) : Option String :=
  match ctx.err with
  | some e => some e
  | none => fault

/-- Modelled from the spec: adapter `Get(ctx, key)` (section 4.2): the bytes,
`NotFound` when the key is absent (an entry whose TTL has run out is absent),
`StoreError` on a transport or protocol failure. -/
def RemoteStore.Get (r : RemoteStore) (ctx : Context) (fault : Option String) (now : Int)
    (key : String) : Except CacheError Bytes :=
  match callFailure ctx fault with
  | some e => Except.error (CacheError.StoreError e)
  | none =>
    match r.entries.find? (fun e => e.key = key) with
    | none => Except.error CacheError.NotFound
    | some e =>
      if e.expiresAt ≤ now then Except.error CacheError.NotFound else Except.ok e.value

/-- Modelled from the spec: adapter `SetWithTTL(ctx, key, bytes, ttl)`
(section 4.2): fails with `StoreError` on failure, and otherwise stores the
value, which the store's own countdown expires `ttl` later. Returns the error
if any, and the store afterwards. -/
def RemoteStore.SetWithTTL (r : RemoteStore) (ctx : Context) (fault : Option String) (now : Int)
    (key : String) (value : Bytes) (ttl : Int) : Option CacheError × RemoteStore :=
  match callFailure ctx fault with
  | some e => (some (CacheError.StoreError e), r)
  | none =>
    (none, { entries := { key := key, value := value, expiresAt := now + ttl } ::
                          r.entries.filter (fun e => e.key ≠ key) })

/-- Modelled from the spec: adapter `Delete(ctx, key)` (section 4.2): fails with
`StoreError` on failure; absence is not an error. -/
def RemoteStore.Delete (r : RemoteStore) (ctx : Context) (fault : Option String)
    (key : String) : Option CacheError × RemoteStore :=
  match callFailure ctx fault with
  | some e => (some (CacheError.StoreError e), r)
  | none => (none, { entries := r.entries.filter (fun e => e.key ≠ key) })

/-- Modelled from the spec: the Multi-Tier Cache Orchestrator of section 4.4
(its defining file is missing from the sources): the local tier it owns and
the remote store it was given. -/
structure MultiCache where
  tier : LocalTier
  remote : RemoteStore
  deriving DecidableEq

/-- Modelled from the spec: `NewMultiCache(capacity, defaultTTL, remoteClient)`
(section 6, missing from the sources): fails with `ConfigError` if
`capacity <= 0`, and otherwise builds a cache with an empty local tier. -/
def NewMultiCache (capacity : Int) (defaultTTL : Int) (remote : RemoteStore) :
    Except CacheError MultiCache :=
  if capacity ≤ 0 then Except.error CacheError.ConfigError
  else Except.ok { tier := { capacity := capacity, defaultTTL := defaultTTL, entries := [] },
                   remote := remote }

/-- Modelled from the spec: orchestrator `GetCtx` (section 4.4, missing from
the sources). (a) The local tier is consulted and a live entry is returned at
once, with no remote call. (b) On a local miss the remote store is asked.
(c) A remote hit repopulates the local tier with the default TTL and is
returned. (d) A remote miss or error is propagated unchanged. Returns the
result and the cache afterwards. -/
def MultiCache.GetCtx (c : MultiCache) (ctx : Context) (fault : Option String) (now : Int)
    (key : String) : Except CacheError Bytes × MultiCache :=
  match c.tier.Get now key with
  | (some v, l) => (Except.ok v, { c with tier := l })
  | (none, l) =>
    match c.remote.Get ctx fault now key with
    | Except.ok v => (Except.ok v, { c with tier := l.Set now key v 0 })
    | Except.error e => (Except.error e, { c with tier := l })

/-- Modelled from the spec: orchestrator `SetCtx` (section 4.4, missing from
the sources), write-through: the remote write comes first; if it fails its
error is returned and the local tier is not touched; otherwise the local tier
is set with the same key, value and ttl. The boolean tells whether a local
entry for the key was replaced. -/
def MultiCache.SetCtx (c : MultiCache) (ctx : Context) (fault : Option String) (now : Int)
    (key : String) (value : Bytes) (ttl : Int) : Except CacheError Bool × MultiCache :=
  match c.remote.SetWithTTL ctx fault now key value ttl with
  | (some e, r) => (Except.error e, { c with remote := r })
  | (none, r) =>
    (Except.ok (c.tier.entries.any (fun e => e.key = key)),
     { tier := c.tier.Set now key value ttl, remote := r })

/-- Modelled from the spec: orchestrator `DeleteCtx` (section 4.4, missing from
the sources): deletes from both tiers; a remote deletion error is surfaced, and
the local deletion is made regardless. -/
def MultiCache.DeleteCtx (c : MultiCache) (ctx : Context) (fault : Option String)
    (key : String) : Option CacheError × MultiCache :=
  match c.remote.Delete ctx fault key with
  | (e, r) => (e, { tier := c.tier.Delete key, remote := r })

/-- Modelled from the spec: `Get(key)`, the variant of `GetCtx` without a
context (section 4.4). -/
def MultiCache.Get (c : MultiCache) (fault : Option String) (now : Int) (key : String) :
    Except CacheError Bytes × MultiCache :=
  c.GetCtx Context.Background fault now key

/-- Modelled from the spec: `Set(key, bytes, ttl)`, the variant of `SetCtx`
without a context (section 4.4). -/
def MultiCache.Set (c : MultiCache) (fault : Option String) (now : Int) (key : String)
    (value : Bytes) (ttl : Int) : Except CacheError Bool × MultiCache :=
  c.SetCtx Context.Background fault now key value ttl

/-- Modelled from the spec: `Delete(key)`, the variant of `DeleteCtx` without a
context (section 4.4). -/
def MultiCache.Delete (c : MultiCache) (fault : Option String) (key : String) :
    Option CacheError × MultiCache :=
  c.DeleteCtx Context.Background fault key

/-- One call on the cache's public surface, with the instant at which it is
made and the condition of the remote call it may make. -/
inductive Op where
  | get (ctx : Context) (fault : Option String) (now : Int) (key : String)
  | set (ctx : Context) (fault : Option String) (now : Int) (key : String) (value : Bytes)
      (ttl : Int)
  | delete (ctx : Context) (fault : Option String) (key : String)
  deriving DecidableEq

/-- The call is a `Set` or a `Delete` of the key `k`. -/
def Op.writes (k : String) : Op → Bool
  | Op.get _ _ _ _ => false
  | Op.set _ _ _ key _ _ => key = k
  | Op.delete _ _ key => key = k

/-- The cache after the call. -/
def MultiCache.step (c : MultiCache) : Op → MultiCache
  | Op.get ctx fault now key => (c.GetCtx ctx fault now key).2
  | Op.set ctx fault now key value ttl => (c.SetCtx ctx fault now key value ttl).2
  | Op.delete ctx fault key => (c.DeleteCtx ctx fault key).2

/-- The cache after the calls, made in order. -/
def MultiCache.run (c : MultiCache) (ops : List Op) : MultiCache :=
  ops.foldl MultiCache.step c

/-- The bytes of the string `"bar"`. -/
def bar : Bytes := [98, 97, 114]

/-- The state kept between a `Set` of `k` and a later read: the remote store
holds `v` for `k` until `exp`, and the local tier holds nothing else for `k`. -/
def Holds (k : String) (v : Bytes) (exp : Int) (c : MultiCache) : Prop :=
  c.remote.entries.find? (fun e => e.key = k) = some { key := k, value := v, expiresAt := exp } ∧
  ∀ e ∈ c.tier.entries, e.key = k → e.value = v

/-- One second, in nanoseconds. -/
def sec : Int := 1000000000

/-- The cache `NewMultiCache(1, 5 * time.Second, r)` over an empty remote store. -/
def cacheOne : MultiCache :=
  { tier := { capacity := 1, defaultTTL := 5 * sec, entries := [] },
    remote := { entries := [] } }

/-- The cache of the test, `NewMultiCache(100, 5 * time.Second, r)`, over an
empty remote store. -/
def cacheTest : MultiCache :=
  { tier := { capacity := 100, defaultTTL := 5 * sec, entries := [] },
    remote := { entries := [] } }

end Cache

/-! ## Theorems: the Redis constructors -/

namespace Redis

/-- The pings of a trace that starts with the creation of the client. -/
theorem pings_create_cons {α : Type} (o : α) (tr : List (Event α)) :
    pings (Event.create o :: tr) = pings tr := rfl

/-- The loop ends within `MaxRetries + 1` iterations. It sends the pings
`retries, ..., retries + n` of the server, for some `n`, and leaves either by
`break` after ping `retries + n` returned no error (client returned, nil
error), or by `return nil, err` with the error of ping `retries + n`. The trace
only grows. -/
theorem connect_spec {α : Type} (c : Connection) (ping : Nat → Option String) (client : α) :
    ∀ (fuel retries : Nat) (tr : List (Event α)),
      1 ≤ fuel → c.MaxRetries.toNat + 1 ≤ fuel + retries →
      ∃ r n rest, connect c ping client fuel retries tr = some r ∧
        r.trace = tr ++ rest ∧
        pings rest = (List.range' retries (n + 1)).map ping ∧
        ((r.client = some client ∧ r.err = none ∧ ping (retries + n) = none ∧
            r.trace.getLast? = some (Event.ping none)) ∨
         (r.client = none ∧ ∃ e, r.err = some (Error.pingError e) ∧
            ping (retries + n) = some e)) := by
  intro fuel
  induction fuel with
  | zero => intro retries tr h; omega
  | succ m ih =>
    intro retries tr _ h
    simp only [connect]
    cases hp : ping retries with
    | none =>
      refine ⟨_, 0, [Event.ping none], rfl, rfl, ?_, Or.inl ⟨rfl, rfl, hp, ?_⟩⟩
      · simp [pings, List.range', hp]
      · simp
    | some e =>
      by_cases hr : (retries : Int) ≥ c.MaxRetries
      · simp only [hr, if_true]
        refine ⟨_, 0, [Event.ping (some e)], rfl, rfl, ?_, Or.inr ⟨rfl, e, rfl, hp⟩⟩
        simp [pings, List.range', hp]
      · simp only [hr, if_false]
        have hm : 1 ≤ m := by omega
        obtain ⟨r, n, rest, hr1, hr2, hr3, hr4⟩ :=
          ih (retries + 1) (tr ++ [Event.ping (some e), Event.sleep c.RetryAfter]) hm
            (by omega)
        refine ⟨r, n + 1, [Event.ping (some e), Event.sleep c.RetryAfter] ++ rest, hr1, ?_,
          ?_, ?_⟩
        · rw [hr2, List.append_assoc]
        · have hcons : pings ([Event.ping (some e), Event.sleep c.RetryAfter] ++ rest) =
              some e :: pings rest := rfl
          rw [hcons, hr3]
          conv_rhs => rw [List.range'_succ, List.map_cons, hp]
        · have hidx : retries + (n + 1) = retries + 1 + n := by omega
          rw [hidx]
          exact hr4

/-- The loop as the constructors start it: just after creating the client, with
`retries = 0`. -/
theorem connect_start {α : Type} (c : Connection) (ping : Nat → Option String) (client : α)
    (fuel : Nat) (hfuel : enoughFuel c ≤ fuel) :
    ∃ r, connect c ping client fuel 0 [Event.create client] = some r ∧
      r.trace.head? = some (Event.create client) ∧
      ((r.client = some client ∧ r.err = none ∧
          r.trace.getLast? = some (Event.ping none)) ∨
       (r.client = none ∧ ∃ e, r.err = some (Error.pingError e))) := by
  unfold enoughFuel at hfuel
  obtain ⟨r, n, rest, h1, h2, _, h4⟩ :=
    connect_spec c ping client fuel 0 [Event.create client] (by omega) (by omega)
  refine ⟨r, h1, by rw [h2]; rfl, ?_⟩
  rcases h4 with ⟨hc, he, _, hl⟩ | ⟨hc, e, he, _⟩
  · exact Or.inl ⟨hc, he, hl⟩
  · exact Or.inr ⟨hc, e, he⟩

/-- The result of the loop, started by a constructor, is `Guarded`. -/
theorem connect_guarded {α : Type} (c : Connection) (ping : Nat → Option String) (client : α)
    (fuel : Nat) (hfuel : enoughFuel c ≤ fuel) :
    ∃ r, connect c ping client fuel 0 [Event.create client] = some r ∧ r.Guarded ping := by
  unfold enoughFuel at hfuel
  obtain ⟨r, n, rest, h1, h2, h3, h4⟩ :=
    connect_spec c ping client fuel 0 [Event.create client] (by omega) (by omega)
  refine ⟨r, h1, ?_, ?_⟩
  · intro herr
    rcases h4 with ⟨hc, _, hp, hl⟩ | ⟨_, e, he, _⟩
    · refine ⟨client, n, hc, by rw [h2]; simp, by simpa using hp, ?_, hl⟩
      rw [h2, List.singleton_append, pings_create_cons, h3, List.range_eq_range']
    · rw [herr] at he; cases he
  · intro herr
    rcases h4 with ⟨_, he, _, _⟩ | ⟨hc, _⟩
    · exact absurd he herr
    · exact hc

/-- Claim C5: after `c.Default()`, `MaxRetries` is 3 if it was `<= 0` and unchanged
otherwise; `PoolSize` is 100 if it was `<= 0` and unchanged otherwise; `RetryAfter`
is 5 seconds if it was `<= 0` and unchanged otherwise; `DB` is 0 if it was `<= 0`
and unchanged otherwise; `Address` and `Addresses` become `"localhost:6379"` and
`["localhost:6379"]` if `Address` was empty and `Addresses` had no element, and
are both unchanged otherwise; `MasterName` and `Password` are unchanged. -/
theorem Default_sets_unset_fields (c : Connection) :
    c.Default.MaxRetries = (if c.MaxRetries ≤ 0 then 3 else c.MaxRetries) ∧
    c.Default.PoolSize = (if c.PoolSize ≤ 0 then 100 else c.PoolSize) ∧
    c.Default.RetryAfter = (if c.RetryAfter ≤ 0 then 5 * 1000000000 else c.RetryAfter) ∧
    c.Default.DB = (if c.DB ≤ 0 then 0 else c.DB) ∧
    c.Default.Address =
      (if c.Address = "" ∧ c.Addresses = [] then "localhost:6379" else c.Address) ∧
    c.Default.Addresses =
      (if c.Address = "" ∧ c.Addresses = [] then ["localhost:6379"] else c.Addresses) ∧
    c.Default.MasterName = c.MasterName ∧
    c.Default.Password = c.Password := by
  rcases c with ⟨mn, a, as, pw, db, mr, ps, ra⟩
  have hlen : as.length = 0 ↔ as = [] := List.length_eq_zero
  by_cases h1 : a = "" ∧ as = [] <;> by_cases h2 : mr ≤ 0 <;> by_cases h3 : ps ≤ 0 <;>
    by_cases h4 : db ≤ 0 <;> by_cases h5 : ra ≤ 0 <;>
    simp [Connection.Default, hlen, h1, h2, h3, h4, h5, DefaultRedisAddress,
      DefaultMaxRetries, DefaultPoolSize, DefaultRetryAfter, Second]

/-- Claim C3: each of `NewUniversalRedisClient`, `NewClusterRedisClient`,
`NewSentinelRedisClient` and `NewSingleRedisClient`, called against a server
whose `k`-th ping has the outcome `ping k`, returns (with enough fuel for its
loop to end, it does return) a result that is `Guarded` for that server. A nil
error comes only with the client that was created and only if a ping on it has
succeeded: the pings sent are the server's pings `0, ..., k` for some `k`, the
last of them has `ping k = none`, and it is the last thing the call did. A
non-nil error comes with a nil client. -/
theorem constructors_return_pinged_client_or_nil (c : Connection)
    (ping : Nat → Option String) (fuel : Nat) (hfuel : enoughFuel c ≤ fuel) :
    (∃ r, NewUniversalRedisClient fuel c ping = some r ∧ r.Guarded ping) ∧
    (∃ r, NewClusterRedisClient fuel c ping = some r ∧ r.Guarded ping) ∧
    (∃ r, NewSentinelRedisClient fuel c ping = some r ∧ r.Guarded ping) ∧
    (∃ r, NewSingleRedisClient fuel c ping = some r ∧ r.Guarded ping) := by
  have hfail : ∀ {α : Type} (msg : String),
      Result.Guarded ping
        ({ client := none, err := some (Error.errorf msg), trace := [] } : Result α) :=
    fun _ => ⟨fun h => Option.noConfusion h, fun _ => rfl⟩
  refine ⟨?_, ?_, ?_, ?_⟩
  · unfold NewUniversalRedisClient
    split_ifs with h
    · exact ⟨_, rfl, hfail _⟩
    · exact connect_guarded c ping _ fuel hfuel
  · unfold NewClusterRedisClient
    split_ifs with h
    · exact ⟨_, rfl, hfail _⟩
    · exact connect_guarded c ping _ fuel hfuel
  · unfold NewSentinelRedisClient
    split_ifs with h h'
    · exact ⟨_, rfl, hfail _⟩
    · exact ⟨_, rfl, hfail _⟩
    · exact connect_guarded c ping _ fuel hfuel
  · unfold NewSingleRedisClient
    split_ifs with h
    · exact ⟨_, rfl, hfail _⟩
    · exact connect_guarded c ping _ fuel hfuel

theorem constructors_return_pinged_client_or_nil_witness :
    enoughFuel sentinelConn ≤ 3 ∧
    ((∃ r, NewUniversalRedisClient 3 sentinelConn ping0 = some r ∧ r.Guarded ping0) ∧
     (∃ r, NewClusterRedisClient 3 sentinelConn ping0 = some r ∧ r.Guarded ping0) ∧
     (∃ r, NewSentinelRedisClient 3 sentinelConn ping0 = some r ∧ r.Guarded ping0) ∧
     (∃ r, NewSingleRedisClient 3 sentinelConn ping0 = some r ∧ r.Guarded ping0)) :=
  ⟨by decide, constructors_return_pinged_client_or_nil sentinelConn ping0 3 (by decide)⟩

/-- Claim C6: `NewUniversalRedisClient` returns the error "address was not set"
exactly when `c.Address` is empty and `c.Addresses` has no element, and then it
returns a nil client and has neither created a client nor pinged. Otherwise the
first thing it does is to create the client, with `Addrs` equal to `c.Addresses`
when that is non-empty and to `[c.Address]` when it is empty, and with the
`MasterName`, `Password`, `DB`, `MaxRetries` and `PoolSize` of `c`. -/
theorem NewUniversalRedisClient_address_selection (c : Connection) (ping : Nat → Option String)
    (fuel : Nat) (hfuel : enoughFuel c ≤ fuel) :
    ∃ r, NewUniversalRedisClient fuel c ping = some r ∧
      (r.err = some (Error.errorf "address was not set") ↔
        (c.Address = "" ∧ c.Addresses = [])) ∧
      (if c.Address = "" ∧ c.Addresses = [] then
        r.client = none ∧ r.trace = []
      else
        r.trace.head? = some (Event.create
          { Addrs := if c.Addresses = [] then [c.Address] else c.Addresses,
            Password := c.Password, DB := c.DB, MasterName := c.MasterName,
            MaxRetries := c.MaxRetries, PoolSize := c.PoolSize })) := by
  have hlen : c.Addresses.length = 0 ↔ c.Addresses = [] := List.length_eq_zero
  unfold NewUniversalRedisClient
  simp only [hlen]
  by_cases h : c.Address = "" ∧ c.Addresses = []
  · rw [if_pos h]
    simp only [if_pos h]
    exact ⟨_, rfl, ⟨fun _ => h, fun _ => rfl⟩, rfl, rfl⟩
  · rw [if_neg h]
    simp only [if_neg h]
    obtain ⟨r, h1, h2, h3⟩ := connect_start c ping
      (if c.Addresses = [] then
        ({ Addrs := [c.Address], Password := c.Password, DB := c.DB,
           MasterName := c.MasterName, MaxRetries := c.MaxRetries,
           PoolSize := c.PoolSize } : UniversalOptions)
       else
        { Addrs := c.Addresses, Password := c.Password, DB := c.DB,
          MasterName := c.MasterName, MaxRetries := c.MaxRetries, PoolSize := c.PoolSize })
      fuel hfuel
    refine ⟨r, h1, ⟨?_, ?_⟩, ?_⟩
    · intro herr
      rcases h3 with ⟨_, he, _⟩ | ⟨_, e, he⟩
      · rw [he] at herr; cases herr
      · rw [he] at herr; cases herr
    · intro h4; exact absurd h4 h
    · rw [h2]
      by_cases h5 : c.Addresses = [] <;> simp [h5]

theorem NewUniversalRedisClient_address_selection_witness :
    enoughFuel { Connection.zero with Address := "10.0.0.1:6379", MaxRetries := 2 } ≤ 3 ∧
    ∃ r, NewUniversalRedisClient 3
        { Connection.zero with Address := "10.0.0.1:6379", MaxRetries := 2 } ping0 = some r ∧
      (r.err = some (Error.errorf "address was not set") ↔
        ("10.0.0.1:6379" = "" ∧ ([] : List String) = [])) ∧
      (if "10.0.0.1:6379" = "" ∧ ([] : List String) = [] then
        r.client = none ∧ r.trace = []
      else
        r.trace.head? = some (Event.create
          { Addrs := if ([] : List String) = [] then ["10.0.0.1:6379"] else [],
            Password := "", DB := 0, MasterName := "",
            MaxRetries := 2, PoolSize := 0 })) :=
  ⟨by decide, NewUniversalRedisClient_address_selection
    { Connection.zero with Address := "10.0.0.1:6379", MaxRetries := 2 } ping0 3 (by decide)⟩

/-- Claim C7, the code at three inputs. The constructors read `MaxRetries`,
`PoolSize` and `RetryAfter` as they are given and never call `Default`:
`NewSingleRedisClient` on a connection that only sets `Address` creates the
client with pool size 0 and gives up after the first refused ping, with no
retry; `NewDefaultRedisClient`, whose literal leaves `RetryAfter` out, sleeps 0
nanoseconds after a refused ping. `NewDefaultRedisUniversalClient`, which goes
through `Default`, sleeps the documented 5 seconds. -/
theorem constructors_use_fields_as_given :
    NewSingleRedisClient 1 { Connection.zero with Address := "localhost:6379" }
        (fun _ => some "connection refused") =
      some { client := none, err := some (Error.pingError "connection refused"),
             trace := [Event.create { Addr := "localhost:6379", Password := "", DB := 0,
                                      MaxRetries := 0, PoolSize := 0 },
                       Event.ping (some "connection refused")] } ∧
    NewDefaultRedisClient 4 (fun k => if k = 0 then some "connection refused" else none) =
      some { client := some { Addr := "localhost:6379", Password := "", DB := 0,
                              MaxRetries := 3, PoolSize := 100 },
             err := none,
             trace := [Event.create { Addr := "localhost:6379", Password := "", DB := 0,
                                      MaxRetries := 3, PoolSize := 100 },
                       Event.ping (some "connection refused"), Event.sleep 0,
                       Event.ping none] } ∧
    NewDefaultRedisUniversalClient 4
        (fun k => if k = 0 then some "connection refused" else none) =
      some { client := some { Addrs := ["localhost:6379"], Password := "", DB := 0,
                              MasterName := "", MaxRetries := 3, PoolSize := 100 },
             err := none,
             trace := [Event.create { Addrs := ["localhost:6379"], Password := "", DB := 0,
                                      MasterName := "", MaxRetries := 3, PoolSize := 100 },
                       Event.ping (some "connection refused"), Event.sleep 5000000000,
                       Event.ping none] } := by
  refine ⟨?_, ?_, ?_⟩ <;> decide

end Redis

/-! ## Theorems: the multi-tier cache -/

namespace Cache

/-- Dropping the entries of another key does not change what a lookup of `k` finds. -/
theorem find_filter_ne (es : List CacheEntry) (k k' : String) (h : k' ≠ k) :
    (es.filter (fun e => e.key ≠ k')).find? (fun e => e.key = k) =
      es.find? (fun e => e.key = k) := by
  rw [List.find?_filter]
  congr 1
  funext a
  by_cases h2 : a.key = k
  · have h1 : ¬ k = k' := fun h3 => h h3.symm
    simp [h1, h2]
  · simp [h2]

/-- What a lookup finds is an entry of the list with the key looked up. -/
theorem find_mem_key (es : List CacheEntry) (k : String) (e : CacheEntry)
    (h : es.find? (fun e => e.key = k) = some e) : e ∈ es ∧ e.key = k := by
  refine ⟨List.mem_of_find?_eq_some h, ?_⟩
  have := List.find?_some h
  simpa using this

/-- A local lookup adds no entry. -/
theorem tier_Get_entries (l : LocalTier) (now : Int) (k : String) :
    ∀ e ∈ (l.Get now k).2.entries, e ∈ l.entries := by
  intro e he
  unfold LocalTier.Get at he
  split at he
  · exact he
  · split_ifs at he
    · exact (List.mem_filter.mp he).1
    · exact he

/-- After a local `Set`, an entry is an old one or holds the value set. -/
theorem tier_Set_entries (l : LocalTier) (now : Int) (k : String) (v : Bytes) (ttl : Int) :
    ∀ e ∈ (l.Set now k v ttl).entries, e ∈ l.entries ∨ (e.key = k ∧ e.value = v) := by
  intro e he
  unfold LocalTier.Set at he
  simp only at he
  split_ifs at he <;> simp only [List.mem_append, List.mem_singleton] at he
  all_goals
    rcases he with he | he
    · first
        | exact Or.inl (List.mem_filter.mp he).1
        | exact Or.inl (List.mem_of_mem_tail he)
        | exact Or.inl he
    · exact Or.inr (by rw [he]; exact ⟨rfl, rfl⟩)

/-- A local `Delete` adds no entry. -/
theorem tier_Delete_entries (l : LocalTier) (k : String) :
    ∀ e ∈ (l.Delete k).entries, e ∈ l.entries := by
  intro e he
  exact (List.mem_filter.mp he).1

/-- A remote hit returns the value of the live entry the store holds for the key. -/
theorem remote_Get_ok (r : RemoteStore) (ctx : Context) (fault : Option String) (now : Int)
    (k : String) (v : Bytes) (h : r.Get ctx fault now k = Except.ok v) :
    ∃ e, r.entries.find? (fun e => e.key = k) = some e ∧ e.value = v ∧ now < e.expiresAt := by
  unfold RemoteStore.Get at h
  split at h
  · cases h
  · split at h
    · cases h
    · rename_i e he
      split_ifs at h with hexp
      cases h
      exact ⟨e, he, rfl, by omega⟩

/-- Any `GetCtx` keeps `Holds`. -/
theorem GetCtx_holds (c : MultiCache) (k : String) (v : Bytes) (exp : Int)
    (h : Holds k v exp c) (ctx : Context) (fault : Option String) (now : Int) (key : String) :
    Holds k v exp (c.GetCtx ctx fault now key).2 := by
  obtain ⟨hr, hl⟩ := h
  have hl2 : ∀ e ∈ (c.tier.Get now key).2.entries, e.key = k → e.value = v :=
    fun e he => hl e (tier_Get_entries c.tier now key e he)
  unfold MultiCache.GetCtx
  split
  · rename_i v1 l hg
    rw [hg] at hl2
    exact ⟨hr, hl2⟩
  · rename_i l hg
    rw [hg] at hl2
    split
    · rename_i v1 hv1
      refine ⟨hr, ?_⟩
      intro e he hk
      rcases tier_Set_entries l now key v1 0 e he with h1 | ⟨h1, h2⟩
      · exact hl2 e h1 hk
      · obtain ⟨e1, hf, hv, _⟩ := remote_Get_ok c.remote ctx fault now key v1 hv1
        rw [h1.symm.trans hk, hr] at hf
        cases hf
        rw [h2, ← hv]
    · exact ⟨hr, hl2⟩

/-- A `SetCtx` of another key keeps `Holds`. -/
theorem SetCtx_holds (c : MultiCache) (k : String) (v : Bytes) (exp : Int)
    (h : Holds k v exp c) (ctx : Context) (fault : Option String) (now : Int) (key : String)
    (value : Bytes) (ttl : Int) (hne : key ≠ k) :
    Holds k v exp (c.SetCtx ctx fault now key value ttl).2 := by
  obtain ⟨hr, hl⟩ := h
  unfold MultiCache.SetCtx RemoteStore.SetWithTTL
  cases hcf : callFailure ctx fault with
  | some e => exact ⟨hr, hl⟩
  | none =>
    refine ⟨?_, ?_⟩
    · show List.find? _ (_ :: _) = _
      rw [List.find?_cons]
      simp only [hne, decide_False]
      rw [find_filter_ne _ _ _ hne]
      exact hr
    · intro e he hk
      rcases tier_Set_entries c.tier now key value ttl e he with h1 | ⟨h1, _⟩
      · exact hl e h1 hk
      · exact absurd (h1.symm.trans hk) hne

/-- A `DeleteCtx` of another key keeps `Holds`. -/
theorem DeleteCtx_holds (c : MultiCache) (k : String) (v : Bytes) (exp : Int)
    (h : Holds k v exp c) (ctx : Context) (fault : Option String) (key : String)
    (hne : key ≠ k) :
    Holds k v exp (c.DeleteCtx ctx fault key).2 := by
  obtain ⟨hr, hl⟩ := h
  have hl2 : ∀ e ∈ (c.tier.Delete key).entries, e.key = k → e.value = v :=
    fun e he => hl e (tier_Delete_entries c.tier key e he)
  unfold MultiCache.DeleteCtx RemoteStore.Delete
  cases hcf : callFailure ctx fault with
  | some e => exact ⟨hr, hl2⟩
  | none =>
    refine ⟨?_, hl2⟩
    show List.find? _ (List.filter _ _) = _
    rw [find_filter_ne _ _ _ hne]
    exact hr

/-- A call that is no `Set` or `Delete` of `k` keeps `Holds`. -/
theorem step_holds (c : MultiCache) (k : String) (v : Bytes) (exp : Int)
    (h : Holds k v exp c) (op : Op) (hop : op.writes k = false) :
    Holds k v exp (c.step op) := by
  cases op with
  | get ctx fault now key => exact GetCtx_holds c k v exp h ctx fault now key
  | set ctx fault now key value ttl =>
    exact SetCtx_holds c k v exp h ctx fault now key value ttl (by simpa [Op.writes] using hop)
  | delete ctx fault key =>
    exact DeleteCtx_holds c k v exp h ctx fault key (by simpa [Op.writes] using hop)

/-- Calls none of which is a `Set` or `Delete` of `k` keep `Holds`. -/
theorem run_holds (k : String) (v : Bytes) (exp : Int) (ops : List Op)
    (hops : ∀ op ∈ ops, op.writes k = false) :
    ∀ c : MultiCache, Holds k v exp c → Holds k v exp (c.run ops) := by
  induction ops with
  | nil => intro c h; exact h
  | cons op ops ih =>
    intro c h
    have h1 := step_holds c k v exp h op (hops op (List.mem_cons_self _ _))
    exact ih (fun o ho => hops o (List.mem_cons_of_mem _ ho)) _ h1

/-- After a local `Set` of `k` the new entry is the newest, and the only one for `k`. -/
theorem tier_Set_cases (l : LocalTier) (now : Int) (k : String) (v : Bytes) (ttl : Int) :
    ∃ xs : List CacheEntry, (∀ e ∈ xs, e.key ≠ k) ∧
      (l.Set now k v ttl).entries =
        xs ++ [{ key := k, value := v,
                 expiresAt := now + (if ttl ≤ 0 then l.defaultTTL else ttl) }] := by
  unfold LocalTier.Set
  simp only
  generalize (if ttl ≤ 0 then l.defaultTTL else ttl) = ttl1
  by_cases h1 : l.entries.any (fun e => e.key = k) = true
  · refine ⟨l.entries.filter (fun e => e.key ≠ k), ?_, by simp only [h1, if_true]⟩
    intro e he
    simpa using (List.mem_filter.mp he).2
  · have hall : ∀ e ∈ l.entries, e.key ≠ k := by
      intro e he hk
      exact h1 (List.any_eq_true.mpr ⟨e, he, by simpa using hk⟩)
    by_cases h2 : (l.entries.length : Int) = l.capacity
    · exact ⟨l.entries.tail, fun e he => hall e (List.mem_of_mem_tail he),
        by simp only [h1, h2, if_true, if_false]; rfl⟩
    · exact ⟨l.entries, hall, by simp only [h1, h2, if_false]; rfl⟩

/-- A lookup of `k` after a local `Set` of `k` finds the entry just set. -/
theorem tier_Set_find (l : LocalTier) (now : Int) (k : String) (v : Bytes) (ttl : Int) :
    (l.Set now k v ttl).entries.find? (fun e => e.key = k) =
      some { key := k, value := v,
             expiresAt := now + (if ttl ≤ 0 then l.defaultTTL else ttl) } := by
  obtain ⟨xs, hxs, heq⟩ := tier_Set_cases l now k v ttl
  rw [heq, List.find?_append]
  have h1 : xs.find? (fun e => e.key = k) = none := by
    rw [List.find?_eq_none]
    intro e he
    simpa using hxs e he
  rw [h1]
  simp [List.find?_cons]

/-- After a local `Set` of `k`, every entry for `k` holds the value set. -/
theorem tier_Set_key (l : LocalTier) (now : Int) (k : String) (v : Bytes) (ttl : Int) :
    ∀ e ∈ (l.Set now k v ttl).entries, e.key = k → e.value = v := by
  intro e he hk
  obtain ⟨xs, hxs, heq⟩ := tier_Set_cases l now k v ttl
  rw [heq, List.mem_append, List.mem_singleton] at he
  rcases he with he | he
  · exact absurd hk (hxs e he)
  · rw [he]

/-- A live local entry is returned without looking at the remote call's condition. -/
theorem GetCtx_local_hit (c : MultiCache) (k : String) (e : CacheEntry)
    (hf : c.tier.entries.find? (fun e => e.key = k) = some e) (now : Int)
    (hlive : now < e.expiresAt) (ctx : Context) (fault : Option String) :
    (c.GetCtx ctx fault now k).1 = Except.ok e.value := by
  have hg : c.tier.Get now k = (some e.value, c.tier) := by
    unfold LocalTier.Get
    rw [hf]
    have : ¬ e.expiresAt ≤ now := by omega
    simp only [this, if_false]
  unfold MultiCache.GetCtx
  rw [hg]

/-- Under `Holds`, a read of `k` before `exp` that can reach the remote store returns `v`. -/
theorem GetCtx_of_holds (c : MultiCache) (k : String) (v : Bytes) (exp : Int)
    (h : Holds k v exp c) (now : Int) (hlt : now < exp) (ctx : Context)
    (fault : Option String) (hcall : callFailure ctx fault = none) :
    (c.GetCtx ctx fault now k).1 = Except.ok v := by
  obtain ⟨hr, hl⟩ := h
  have hrem : c.remote.Get ctx fault now k = Except.ok v := by
    unfold RemoteStore.Get
    rw [hcall]
    simp only [hr]
    have : ¬ exp ≤ now := by omega
    simp only [this, if_false]
  unfold MultiCache.GetCtx
  split
  · rename_i v1 l hg
    unfold LocalTier.Get at hg
    split at hg
    · cases hg
    · rename_i e he
      split_ifs at hg
      · cases hg
      · simp only [Prod.mk.injEq, Option.some.injEq] at hg
        obtain ⟨hv1, _⟩ := hg
        subst hv1
        obtain ⟨hmem, hk⟩ := find_mem_key _ _ _ he
        show Except.ok e.value = Except.ok v
        rw [hl e hmem hk]
  · rw [hrem]

/-- Under `Holds`, a read of `k` before `exp` returns `v`, or else the failure of
the remote call it had to make. -/
theorem GetCtx_of_holds_or (c : MultiCache) (k : String) (v : Bytes) (exp : Int)
    (h : Holds k v exp c) (now : Int) (hlt : now < exp) (ctx : Context)
    (fault : Option String) :
    (c.GetCtx ctx fault now k).1 = Except.ok v ∨
    ∃ e, callFailure ctx fault = some e ∧
      (c.GetCtx ctx fault now k).1 = Except.error (CacheError.StoreError e) := by
  cases hcf : callFailure ctx fault with
  | none => exact Or.inl (GetCtx_of_holds c k v exp h now hlt ctx fault hcf)
  | some e =>
    have hrem : c.remote.Get ctx fault now k = Except.error (CacheError.StoreError e) := by
      unfold RemoteStore.Get
      rw [hcf]
    unfold MultiCache.GetCtx
    split
    · rename_i v1 l hg
      left
      unfold LocalTier.Get at hg
      split at hg
      · cases hg
      · rename_i e1 he
        split_ifs at hg
        · cases hg
        · simp only [Prod.mk.injEq, Option.some.injEq] at hg
          obtain ⟨hv1, _⟩ := hg
          subst hv1
          obtain ⟨hmem, hk⟩ := find_mem_key _ _ _ he
          show Except.ok e1.value = Except.ok v
          rw [h.2 e1 hmem hk]
    · right
      refine ⟨e, rfl, ?_⟩
      rw [hrem]

/-- The cache after a successful `SetCtx`: both tiers hold the entry. -/
theorem SetCtx_ok (c : MultiCache) (ctx : Context) (fault : Option String) (now : Int)
    (k : String) (v : Bytes) (ttl : Int) (b : Bool)
    (h : (c.SetCtx ctx fault now k v ttl).1 = Except.ok b) :
    (c.SetCtx ctx fault now k v ttl).2 =
      { tier := c.tier.Set now k v ttl,
        remote := { entries := { key := k, value := v, expiresAt := now + ttl } ::
                                 c.remote.entries.filter (fun e => e.key ≠ k) } } := by
  unfold MultiCache.SetCtx RemoteStore.SetWithTTL at h ⊢
  cases hcf : callFailure ctx fault with
  | some e => rw [hcf] at h; cases h
  | none => rfl

/-- The scenario of `TestMultiCache`, on an empty remote store that answers every
call: capacity 100, `Set("foo", "bar", 5s)`, then `Get("foo")` is `"bar"` at once
and 2 seconds later, and fails with `NotFound` 7 seconds after the `Set`. -/
theorem TestMultiCache_scenario :
    NewMultiCache 100 (5 * sec) { entries := [] } = Except.ok cacheTest ∧
    (cacheTest.Set none 0 "foo" bar (5 * sec)).1 = Except.ok false ∧
    ((cacheTest.Set none 0 "foo" bar (5 * sec)).2.Get none 0 "foo").1 = Except.ok bar ∧
    (((cacheTest.Set none 0 "foo" bar (5 * sec)).2.Get none 0 "foo").2.Get none (2 * sec)
      "foo").1 = Except.ok bar ∧
    ((((cacheTest.Set none 0 "foo" bar (5 * sec)).2.Get none 0 "foo").2.Get none (2 * sec)
      "foo").2.Get none (7 * sec) "foo").1 = Except.error CacheError.NotFound := by
  refine ⟨?_, ?_, ?_, ?_, ?_⟩ <;> decide

/-- Claim C1 as stated fails. On `NewMultiCache(1, 5s, r)`, `Set("foo", "bar", 5s)`
succeeds at instant 0; one second later a `Set` of another key, `"baz"`, evicts
`"foo"` from the local tier of capacity 1; at 2 seconds, with no `Set` or
`Delete` of `"foo"` in between, `Get("foo")` has to ask the remote store, the
call fails in transport, and `Get` returns that `StoreError`, not `"bar"`. -/
theorem set_then_get_counterexample :
    NewMultiCache 1 (5 * sec) { entries := [] } = Except.ok cacheOne ∧
    (cacheOne.Set none 0 "foo" bar (5 * sec)).1 = Except.ok false ∧
    (0 : Int) < 5 * sec ∧ (0 : Int) ≤ 2 * sec ∧ 2 * sec < 5 * sec ∧
    (∀ op ∈ [Op.set Context.Background none sec "baz" bar (5 * sec)],
      op.writes "foo" = false) ∧
    (((cacheOne.Set none 0 "foo" bar (5 * sec)).2.run
        [Op.set Context.Background none sec "baz" bar (5 * sec)]).Get
        (some "i/o timeout") (0 + 2 * sec) "foo").1 =
      Except.error (CacheError.StoreError "i/o timeout") ∧
    (((cacheOne.Set none 0 "foo" bar (5 * sec)).2.run
        [Op.set Context.Background none sec "baz" bar (5 * sec)]).Get
        (some "i/o timeout") (0 + 2 * sec) "foo").1 ≠ Except.ok bar := by
  refine ⟨?_, ?_, ?_, ?_, ?_, ?_, ?_, ?_⟩ <;> decide

/-- Claim C1, amended: on a cache built by `NewMultiCache` (which requires a
positive capacity), after any history of calls, let `SetCtx(K, V, ttl)` with
`ttl > 0` succeed at the instant `now` (`Set` is `SetCtx` with the background
context). A `GetCtx(K)` made at `now + t` with `0 <= t < ttl`, whatever calls
were made in between as long as none is a `Set` or a `Delete` of `K`, returns
exactly `V`, with one exception: when calls were made in between (they may have
evicted `K` from the local tier) and the remote call of the read fails, because
its context is done or the transport fails, the read returns that `StoreError`.
It never returns another value or `NotFound`. The same holds of `Get(K)`. -/
theorem set_then_get_returns_value_or_store_error
    (capacity defaultTTL : Int) (remote0 : RemoteStore) (c0 : MultiCache)
    (hnew : NewMultiCache capacity defaultTTL remote0 = Except.ok c0)
    (history : List Op)
    (K : String) (V : Bytes) (ttl now t : Int)
    (ctx : Context) (fault : Option String) (replaced : Bool)
    (hset : ((c0.run history).SetCtx ctx fault now K V ttl).1 = Except.ok replaced)
    (httl : 0 < ttl) (ht0 : 0 ≤ t) (ht : t < ttl)
    (ops : List Op) (hops : ∀ op ∈ ops, op.writes K = false)
    (ctx2 : Context) (fault2 : Option String) :
    (((((c0.run history).SetCtx ctx fault now K V ttl).2.run ops).GetCtx
          ctx2 fault2 (now + t) K).1 = Except.ok V ∨
      (ops ≠ [] ∧ ∃ e, callFailure ctx2 fault2 = some e ∧
        ((((c0.run history).SetCtx ctx fault now K V ttl).2.run ops).GetCtx
          ctx2 fault2 (now + t) K).1 = Except.error (CacheError.StoreError e))) ∧
    (((((c0.run history).SetCtx ctx fault now K V ttl).2.run ops).Get
          fault2 (now + t) K).1 = Except.ok V ∨
      (ops ≠ [] ∧ ∃ e, fault2 = some e ∧
        ((((c0.run history).SetCtx ctx fault now K V ttl).2.run ops).Get
          fault2 (now + t) K).1 = Except.error (CacheError.StoreError e))) := by
  have _hbuilt := hnew
  have _helapsed := ht0
  rw [SetCtx_ok _ ctx fault now K V ttl replaced hset]
  have hpos : ¬ ttl ≤ 0 := by omega
  have key : ∀ ctx1 : Context,
      ((MultiCache.run
          { tier := (c0.run history).tier.Set now K V ttl,
            remote := { entries := { key := K, value := V, expiresAt := now + ttl } ::
                          (c0.run history).remote.entries.filter (fun e => e.key ≠ K) } }
          ops).GetCtx ctx1 fault2 (now + t) K).1 = Except.ok V ∨
      (ops ≠ [] ∧ ∃ e, callFailure ctx1 fault2 = some e ∧
        ((MultiCache.run
          { tier := (c0.run history).tier.Set now K V ttl,
            remote := { entries := { key := K, value := V, expiresAt := now + ttl } ::
                          (c0.run history).remote.entries.filter (fun e => e.key ≠ K) } }
          ops).GetCtx ctx1 fault2 (now + t) K).1 =
            Except.error (CacheError.StoreError e)) := by
    intro ctx1
    by_cases hnil : ops = []
    · subst hnil
      left
      have hf := tier_Set_find (c0.run history).tier now K V ttl
      simp only [hpos, if_false] at hf
      exact GetCtx_local_hit
        { tier := (c0.run history).tier.Set now K V ttl,
          remote := { entries := { key := K, value := V, expiresAt := now + ttl } ::
                        (c0.run history).remote.entries.filter (fun e => e.key ≠ K) } }
        K { key := K, value := V, expiresAt := now + ttl } hf (now + t)
        (by show now + t < now + ttl; omega) ctx1 fault2
    · have h0 : Holds K V (now + ttl)
          { tier := (c0.run history).tier.Set now K V ttl,
            remote := { entries := { key := K, value := V, expiresAt := now + ttl } ::
                          (c0.run history).remote.entries.filter (fun e => e.key ≠ K) } } := by
        refine ⟨?_, tier_Set_key _ now K V ttl⟩
        simp [List.find?_cons]
      rcases GetCtx_of_holds_or _ K V (now + ttl) (run_holds K V (now + ttl) ops hops _ h0)
        (now + t) (by omega) ctx1 fault2 with h1 | ⟨e, h1, h2⟩
      · exact Or.inl h1
      · exact Or.inr ⟨hnil, e, h1, h2⟩
  exact ⟨key ctx2, key Context.Background⟩

theorem set_then_get_returns_value_or_store_error_witness :
    NewMultiCache 1 (5 * sec) { entries := [] } = Except.ok cacheOne ∧
    ((cacheOne.run []).Set none 0 "foo" bar (5 * sec)).1 = Except.ok false ∧
    (0 : Int) < 5 * sec ∧ (0 : Int) ≤ 2 * sec ∧ 2 * sec < 5 * sec ∧
    (∀ op ∈ [Op.set Context.Background none sec "baz" bar (5 * sec)],
      op.writes "foo" = false) ∧
    ((((((cacheOne.run []).Set none 0 "foo" bar (5 * sec)).2.run
          [Op.set Context.Background none sec "baz" bar (5 * sec)]).GetCtx
          Context.Background none (0 + 2 * sec) "foo").1 = Except.ok bar ∨
      ([Op.set Context.Background none sec "baz" bar (5 * sec)] ≠ [] ∧
        ∃ e, callFailure Context.Background none = some e ∧
          ((((cacheOne.run []).Set none 0 "foo" bar (5 * sec)).2.run
            [Op.set Context.Background none sec "baz" bar (5 * sec)]).GetCtx
            Context.Background none (0 + 2 * sec) "foo").1 =
              Except.error (CacheError.StoreError e))) ∧
     (((((cacheOne.run []).Set none 0 "foo" bar (5 * sec)).2.run
          [Op.set Context.Background none sec "baz" bar (5 * sec)]).Get
          none (0 + 2 * sec) "foo").1 = Except.ok bar ∨
      ([Op.set Context.Background none sec "baz" bar (5 * sec)] ≠ [] ∧
        ∃ e, (none : Option String) = some e ∧
          ((((cacheOne.run []).Set none 0 "foo" bar (5 * sec)).2.run
            [Op.set Context.Background none sec "baz" bar (5 * sec)]).Get
            none (0 + 2 * sec) "foo").1 = Except.error (CacheError.StoreError e)))) :=
  ⟨by decide, by decide, by decide, by decide, by decide, by decide,
   set_then_get_returns_value_or_store_error 1 (5 * sec) { entries := [] } cacheOne
     (by decide) [] "foo" bar (5 * sec) 0 (2 * sec) Context.Background none false
     (by decide) (by decide) (by decide) (by decide)
     [Op.set Context.Background none sec "baz" bar (5 * sec)] (by decide)
     Context.Background none⟩

/-- Claim C2 as stated fails. Seven seconds after `Set("foo", "bar", 5s)` on the
cache of the test, the entry for `"foo"` has expired in the local tier and in
the remote store; a `Get("foo")` whose remote call fails in transport, and a
`GetCtx(ctx, "foo")` whose context is cancelled, return that `StoreError`, which
is another error than `NotFound`. -/
theorem get_after_expiry_counterexample :
    (∀ e ∈ (cacheTest.Set none 0 "foo" bar (5 * sec)).2.tier.entries,
      e.key = "foo" → e.expiresAt ≤ 7 * sec) ∧
    (∀ e ∈ (cacheTest.Set none 0 "foo" bar (5 * sec)).2.remote.entries,
      e.key = "foo" → e.expiresAt ≤ 7 * sec) ∧
    ((cacheTest.Set none 0 "foo" bar (5 * sec)).2.Get (some "i/o timeout") (7 * sec)
        "foo").1 = Except.error (CacheError.StoreError "i/o timeout") ∧
    ((cacheTest.Set none 0 "foo" bar (5 * sec)).2.Get (some "i/o timeout") (7 * sec)
        "foo").1 ≠ Except.error CacheError.NotFound ∧
    ((cacheTest.Set none 0 "foo" bar (5 * sec)).2.GetCtx
        { err := some "context canceled" } none (7 * sec) "foo").1 =
      Except.error (CacheError.StoreError "context canceled") ∧
    ((cacheTest.Set none 0 "foo" bar (5 * sec)).2.GetCtx
        { err := some "context canceled" } none (7 * sec) "foo").1 ≠
      Except.error CacheError.NotFound := by
  refine ⟨?_, ?_, ?_, ?_, ?_, ?_⟩ <;> decide

/-- Claim C2, amended: once the entry for `K` has expired in the local tier and
in the remote store (every entry either holds for `K` has `expiresAt <= now`;
having none is included), `GetCtx(ctx, K)` and `Get(K)` fail and return no
value, stale or not: with `NotFound`, the remote store's nil reply, when the
store answers the call, and with the `StoreError` of the remote call when it
does not (the context is done or the transport fails). -/
theorem get_after_expiry_fails_without_value (c : MultiCache) (K : String) (now : Int)
    (hlocal : ∀ e ∈ c.tier.entries, e.key = K → e.expiresAt ≤ now)
    (hremote : ∀ e ∈ c.remote.entries, e.key = K → e.expiresAt ≤ now)
    (ctx : Context) (fault : Option String) :
    (c.GetCtx ctx fault now K).1 =
      (match callFailure ctx fault with
        | none => Except.error CacheError.NotFound
        | some e => Except.error (CacheError.StoreError e)) ∧
    (c.Get fault now K).1 =
      (match fault with
        | none => Except.error CacheError.NotFound
        | some e => Except.error (CacheError.StoreError e)) := by
  have key : ∀ (ctx1 : Context),
      (c.GetCtx ctx1 fault now K).1 =
        (match callFailure ctx1 fault with
          | none => Except.error CacheError.NotFound
          | some e => Except.error (CacheError.StoreError e)) := by
    intro ctx1
    have hrem : c.remote.Get ctx1 fault now K =
        (match callFailure ctx1 fault with
          | none => Except.error CacheError.NotFound
          | some e => Except.error (CacheError.StoreError e)) := by
      unfold RemoteStore.Get
      cases callFailure ctx1 fault with
      | some e => rfl
      | none =>
        simp only
        split
        · rfl
        · rename_i e he
          obtain ⟨hmem, hk⟩ := find_mem_key _ _ _ he
          simp only [hremote e hmem hk, if_true]
    have hloc : (c.tier.Get now K).1 = none := by
      unfold LocalTier.Get
      split
      · rfl
      · rename_i e he
        obtain ⟨hmem, hk⟩ := find_mem_key _ _ _ he
        simp only [hlocal e hmem hk, if_true]
    unfold MultiCache.GetCtx
    split
    · rename_i v l hg
      rw [hg] at hloc
      cases hloc
    · rw [hrem]
      cases callFailure ctx1 fault <;> rfl
  exact ⟨key ctx, key Context.Background⟩

theorem get_after_expiry_fails_without_value_witness :
    (∀ e ∈ (cacheTest.Set none 0 "foo" bar (5 * sec)).2.tier.entries,
      e.key = "foo" → e.expiresAt ≤ 7 * sec) ∧
    (∀ e ∈ (cacheTest.Set none 0 "foo" bar (5 * sec)).2.remote.entries,
      e.key = "foo" → e.expiresAt ≤ 7 * sec) ∧
    ((cacheTest.Set none 0 "foo" bar (5 * sec)).2.GetCtx Context.Background none (7 * sec)
        "foo").1 =
      (match callFailure Context.Background none with
        | none => Except.error CacheError.NotFound
        | some e => Except.error (CacheError.StoreError e)) ∧
    ((cacheTest.Set none 0 "foo" bar (5 * sec)).2.Get none (7 * sec) "foo").1 =
      (match (none : Option String) with
        | none => Except.error CacheError.NotFound
        | some e => Except.error (CacheError.StoreError e)) :=
  ⟨by decide, by decide,
   get_after_expiry_fails_without_value (cacheTest.Set none 0 "foo" bar (5 * sec)).2 "foo"
     (7 * sec) (by decide) (by decide) Context.Background none⟩

/-- Claim C4: `Set` is write-through and fail-closed. If the remote write made by
`SetCtx(K, V, ttl)` fails with `err` (`Set` is the case of the background
context), then `SetCtx` returns `err`, which is a `StoreError`, and the local
tier after the call is exactly the local tier before it. -/
theorem set_remote_failure_leaves_local_tier (c : MultiCache) (ctx : Context)
    (fault : Option String) (now : Int) (K : String) (V : Bytes) (ttl : Int)
    (err : CacheError)
    (hfail : (c.remote.SetWithTTL ctx fault now K V ttl).1 = some err) :
    (c.SetCtx ctx fault now K V ttl).1 = Except.error err ∧
    (∃ msg, err = CacheError.StoreError msg) ∧
    (c.SetCtx ctx fault now K V ttl).2.tier = c.tier := by
  unfold MultiCache.SetCtx
  unfold RemoteStore.SetWithTTL at hfail ⊢
  cases hcf : callFailure ctx fault with
  | none => rw [hcf] at hfail; cases hfail
  | some e =>
    rw [hcf] at hfail
    simp only [Option.some.injEq] at hfail
    subst hfail
    exact ⟨rfl, ⟨e, rfl⟩, rfl⟩

theorem set_remote_failure_leaves_local_tier_witness :
    (cacheTest.remote.SetWithTTL Context.Background (some "i/o timeout") 0 "foo" bar
        (5 * sec)).1 = some (CacheError.StoreError "i/o timeout") ∧
    ((cacheTest.Set (some "i/o timeout") 0 "foo" bar (5 * sec)).1 =
        Except.error (CacheError.StoreError "i/o timeout") ∧
     (∃ msg, CacheError.StoreError "i/o timeout" = CacheError.StoreError msg) ∧
     (cacheTest.Set (some "i/o timeout") 0 "foo" bar (5 * sec)).2.tier = cacheTest.tier) :=
  ⟨by decide, set_remote_failure_leaves_local_tier cacheTest Context.Background
     (some "i/o timeout") 0 "foo" bar (5 * sec) (CacheError.StoreError "i/o timeout")
     (by decide)⟩

end Cache
